import Mathlib

/-!
Verification of the CSEW drug-prediction engine.

`predict` in `predict.py` (duplicated in `app.py`) maps a set of
demographic answers to a ranked list of per-drug adjusted prevalence
rates, using a geometric mean of demographic/baseline ratios; the
page script in `app.py` derives an "any drug" composite estimate from
the top three rates.  This file embeds the engine shallowly over `ℝ`
and proves the specified properties about it.
-/

namespace Drugs

/-- A survey question: stable id, display prompt, and an association
list from option label to a per-drug demographic rate mapping
(one entry of the `questions` member of `csew_data.json`). -/
structure Question where
  id : String
  prompt : String
  options : List (String × List (String × ℝ))

/-- The Dataset Store: `baseline` (drug → rate, insertion ordered),
`drug_classes` and `questions`, the three top-level members of
`csew_data.json` loaded by `data.py` / `app.py`. -/
structure Store where
  baseline : List (String × ℝ)
  drug_classes : List (String × String)
  questions : List Question

/-- `DRUGS = list(BASELINE.keys())` (`data.py` line 16). -/
def Store.drugs (s : Store) : List String := s.baseline.map Prod.fst

/-- An Answer Set: partial mapping from question id to chosen option
label (a Python `dict`, modelled by its lookup function). -/
def AnswerSet := String → Option String

/-- One emitted result row.  `predict.py` omits the last three fields
for zero-baseline drugs, modelled by `Option` (`none` = omitted). -/
structure Result where
  drug : String
  rate : ℝ
  baseline_rate : Option ℝ
  multiplier : Option ℝ
  classification : Option String

/-- Python `round(x, 2)`, modelled as rounding to the nearest
multiple of 1/100 (half away from zero at ties; no claim below
depends on tie behaviour, where CPython rounds half to even). -/
noncomputable def round2 (x : ℝ) : ℝ := ((round (100 * x) : ℤ) : ℝ) / 100

/-- The demographic rate contributed by one question for one drug:
`none` when the question is unanswered or the chosen option is not
among the question's options, otherwise the option's rate for the
drug, defaulting to 0 (`q["options"][chosen].get(drug, 0.0)`,
`predict.py` lines 36–43). -/
def answerRate (a : AnswerSet) (drug : String) (q : Question) : Option ℝ :=
  match a q.id with
  | none => none
  | some chosen =>
    match q.options.lookup chosen with
    | none => none
    | some demoMap => some ((demoMap.lookup drug).getD 0)

/-- All demographic rates recognised for a drug, one per answered,
recognised question (the inner loop of `predict`). -/
def recognizedRates (s : Store) (a : AnswerSet) (drug : String) : List ℝ :=
  s.questions.filterMap (answerRate a drug)

/-- `log((demo if demo > 0 else 0.01) / base)`: the 0.01 floor
substitution applied before the logarithm (`predict.py` 43–49). -/
noncomputable def flooredLogRatio (base demo : ℝ) : ℝ :=
  Real.log ((if demo ≤ 0 then 0.01 else demo) / base)

/-- `base * exp(mean of logs)` when at least one log-ratio was
accumulated, `base` otherwise (`predict.py` lines 51–56). -/
noncomputable def geoAdjust (base : ℝ) (logs : List ℝ) : ℝ :=
  match logs with
  | [] => base
  | _ => base * Real.exp (logs.sum / logs.length)

/-- The body of the per-drug loop of `predict` in `predict.py`
(lines 28–70): zero-baseline short-circuit, geometric-mean
adjustment, clamp to [0, 95], rounding, multiplier. -/
noncomputable def resultFor (s : Store) (a : AnswerSet) (drug : String) (base : ℝ) :
    Result :=
  if base ≤ 0 then ⟨drug, 0, none, none, none⟩
  else
    let logs := (recognizedRates s a drug).map (flooredLogRatio base)
    let adjusted := max (min (geoAdjust base logs) 95) 0
    let multiplier := if 0 < base then adjusted / base else 1
    ⟨drug, round2 adjusted, some (round2 base), some (round2 multiplier),
      some ((s.drug_classes.lookup drug).getD "")⟩

/-- The result list before sorting, in the Dataset Store's drug
enumeration order (`for drug in DRUGS`). -/
noncomputable def preResults (s : Store) (a : AnswerSet) : List Result :=
  s.baseline.map fun p => resultFor s a p.1 p.2

/-- The descending-by-rate comparator of the final stable sort
(`results.sort(key=lambda x: x["rate"], reverse=True)`). -/
noncomputable def rateGE (x y : Result) : Bool := decide (y.rate ≤ x.rate)

/-- `predict` from `predict.py`; Python's `list.sort` is stable, as
is `List.mergeSort`. -/
noncomputable def predict (s : Store) (a : AnswerSet) : List Result :=
  (preResults s a).mergeSort rateGE

/-- One result row of the `app.py` copy of the engine, which emits
only `drug`, `rate` and (for positive baselines) `classification`. -/
structure AppResult where
  drug : String
  rate : ℝ
  classification : Option String

/-- The body of the per-drug loop of `predict` in `app.py`
(lines 54–92). -/
noncomputable def appResultFor (s : Store) (a : AnswerSet) (drug : String) (base : ℝ) :
    AppResult :=
  if base ≤ 0 then ⟨drug, 0, none⟩
  else
    let logs := (recognizedRates s a drug).map (flooredLogRatio base)
    let adjusted := max (min (geoAdjust base logs) 95) 0
    ⟨drug, round2 adjusted, some ((s.drug_classes.lookup drug).getD "")⟩

/-- The unsorted result list of the `app.py` engine copy. -/
noncomputable def appPreResults (s : Store) (a : AnswerSet) : List AppResult :=
  s.baseline.map fun p => appResultFor s a p.1 p.2

/-- Descending-by-rate comparator for `AppResult`. -/
noncomputable def appRateGE (x y : AppResult) : Bool := decide (y.rate ≤ x.rate)

/-- `predict` from `app.py` (lines 37–95). -/
noncomputable def appPredict (s : Store) (a : AnswerSet) : List AppResult :=
  (appPreResults s a).mergeSort appRateGE

/-- Projection dropping the two fields `app.py` does not emit. -/
def stripResult (r : Result) : AppResult := ⟨r.drug, r.rate, r.classification⟩

/-- The any-drug composite estimate of `renderResults` in `app.py`
(lines 727–730): top-3 rate sum, times 0.85, capped at 95. -/
noncomputable def anyDrugEstimate (drugs : List AppResult) : ℝ :=
  min (((drugs.take 3).map AppResult.rate).sum * 0.85) 95

/-- Dropping one answer from an Answer Set (a `dict` minus one key). -/
def removeAnswer (q : String) (a : AnswerSet) : AnswerSet :=
  fun x => if x = q then none else a x

/-- The empty Answer Set. -/
def emptyAnswers : AnswerSet := fun _ => none

/-! ### Concrete instances used in witnesses and counterexamples -/

/-- Store with two drugs sharing the same baseline rate, hence tied
adjusted rates. -/
def s2 : Store := ⟨[("A", 10), ("B", 10)], [], []⟩

/-- Store with a single drug whose baseline rate is 98. -/
def s3 : Store := ⟨[("X", 98)], [], []⟩

/-- Store with a single drug whose baseline rate is 42.5, an exact
two-decimal value inside [0, 95]. -/
def s3w : Store := ⟨[("X", 42.5)], [], []⟩

/-- Store matching the spec's literal example: baseline 10 for the
drug, one question whose answered option carries demographic rate
20. -/
def s4 : Store := ⟨[("Cannabis", 10)], [("Cannabis", "Class B")],
  [⟨"age", "Age?", [("20-24", [("Cannabis", 20)])]⟩]⟩

/-- Answer Set choosing the one option of `s4`. -/
def a4 : AnswerSet := fun q => if q = "age" then some "20-24" else none

/-- Store with a single drug whose baseline rate is 0. -/
def s5 : Store := ⟨[("Z", 0)], [], []⟩

/-- Store exhibiting the C6 counterexample: baseline 10, one answered
option with demographic rate 0 for the drug, a second answered option
with tiny positive rate 0.0001. -/
def s6 : Store := ⟨[("X", 10)], [],
  [⟨"q1", "p", [("o", [("X", 0)])]⟩, ⟨"q2", "p", [("o", [("X", 0.0001)])]⟩]⟩

/-- Answer Set choosing both options of `s6`. -/
def a6 : AnswerSet := fun q =>
  if q = "q1" then some "o" else if q = "q2" then some "o" else none

/-- Store with baseline 10 and a single answered option whose
demographic rate for the drug is 0. -/
def s6w : Store := ⟨[("X", 10)], [], [⟨"q1", "p", [("o", [("X", 0)])]⟩]⟩

/-- Answer Set choosing the one option of `s6w`. -/
def a6w : AnswerSet := fun q => if q = "q1" then some "o" else none

/-- Store with one question `age`; the id `junk` is unknown to it. -/
def s7 : Store := ⟨[("X", 10)], [], [⟨"age", "p", [("young", [("X", 20)])]⟩]⟩

/-- Answer Set answering `age` and also the unknown id `junk`. -/
def a7 : AnswerSet := fun x =>
  if x = "age" then some "young" else if x = "junk" then some "whatever" else none

/-- Empty store used to instantiate per-drug field checks. -/
def s10 : Store := ⟨[], [], []⟩

/-! ### Rounding helpers -/

theorem round_mono {x y : ℝ} (h : x ≤ y) : round x ≤ round y := by
  rw [round_eq, round_eq]
  exact Int.floor_mono (by linarith)

theorem round2_mono {x y : ℝ} (h : x ≤ y) : round2 x ≤ round2 y := by
  unfold round2
  have h1 : round (100 * x) ≤ round (100 * y) := round_mono (by linarith)
  have h2 : ((round (100 * x) : ℤ) : ℝ) ≤ ((round (100 * y) : ℤ) : ℝ) := by
    exact_mod_cast h1
  linarith

theorem round2_eval (k : ℤ) (x : ℝ) (hx : 100 * x = (k : ℝ)) :
    round2 x = (k : ℝ) / 100 := by
  unfold round2
  rw [hx, round_intCast]

theorem round2_zero : round2 0 = 0 := by
  rw [round2_eval 0 0 (by norm_num)]
  norm_num

theorem round2_95 : round2 95 = 95 := by
  rw [round2_eval 9500 95 (by norm_num)]
  norm_num

/-! ### Per-drug result basics -/

theorem resultFor_drug (s : Store) (a : AnswerSet) (d : String) (b : ℝ) :
    (resultFor s a d b).drug = d := by
  unfold resultFor
  split <;> rfl

theorem resultFor_rate_bounds (s : Store) (a : AnswerSet) (d : String) (b : ℝ) :
    0 ≤ (resultFor s a d b).rate ∧ (resultFor s a d b).rate ≤ 95 := by
  unfold resultFor
  split
  · exact ⟨le_rfl, by norm_num⟩
  · show 0 ≤ round2 (max (min (geoAdjust b ((recognizedRates s a d).map
        (flooredLogRatio b))) 95) 0) ∧
      round2 (max (min (geoAdjust b ((recognizedRates s a d).map
        (flooredLogRatio b))) 95) 0) ≤ 95
    constructor
    · have h := round2_mono (le_max_right (min (geoAdjust b
        ((recognizedRates s a d).map (flooredLogRatio b))) 95) 0)
      rwa [round2_zero] at h
    · have h1 : max (min (geoAdjust b ((recognizedRates s a d).map
          (flooredLogRatio b))) 95) 0 ≤ 95 :=
        max_le (min_le_right _ _) (by norm_num)
      have h := round2_mono h1
      rwa [round2_95] at h

/-! ### Sorting helpers -/

theorem rateGE_trans : ∀ x y z : Result, rateGE x y → rateGE y z → rateGE x z := by
  intro x y z hxy hyz
  simp only [rateGE, decide_eq_true_eq] at *
  exact le_trans hyz hxy

theorem rateGE_total : ∀ x y : Result, rateGE x y || rateGE y x := by
  intro x y
  simp only [rateGE, Bool.or_eq_true, decide_eq_true_eq]
  exact le_total y.rate x.rate

theorem predict_perm_preResults (s : Store) (a : AnswerSet) :
    (predict s a).Perm (preResults s a) :=
  List.mergeSort_perm _ _

theorem mem_predict {r : Result} {s : Store} {a : AnswerSet} :
    r ∈ predict s a ↔ r ∈ preResults s a :=
  List.mem_mergeSort

theorem resultFor_mem_predict {s : Store} {a : AnswerSet} {d : String} {b : ℝ}
    (h : (d, b) ∈ s.baseline) : resultFor s a d b ∈ predict s a := by
  apply mem_predict.mpr
  unfold preResults
  exact List.mem_map_of_mem _ h

theorem predict_drugs_perm (s : Store) (a : AnswerSet) :
    ((predict s a).map Result.drug).Perm s.drugs := by
  have h2 := (predict_perm_preResults s a).map Result.drug
  have h3 : (preResults s a).map Result.drug = s.drugs := by
    unfold preResults Store.drugs
    rw [List.map_map]
    exact List.map_congr_left fun p _ => resultFor_drug s a p.1 p.2
  rwa [h3] at h2

/-! ### Claim theorems -/

/-- C1: for every Answer Set (including the empty one), `predict`
returns exactly one Result per drug of the Dataset Store's baseline
mapping (the emitted drug names are a permutation of the baseline key
enumeration), and every Result's rate lies in the closed interval
[0, 95]. -/
theorem predict_one_result_per_drug_rate_in_range (s : Store) (a : AnswerSet) :
    ((predict s a).map Result.drug).Perm s.drugs ∧
    ∀ r ∈ predict s a, 0 ≤ r.rate ∧ r.rate ≤ 95 := by
  refine ⟨predict_drugs_perm s a, ?_⟩
  intro r hr
  rw [mem_predict] at hr
  unfold preResults at hr
  obtain ⟨p, _, rfl⟩ := List.mem_map.mp hr
  exact resultFor_rate_bounds s a p.1 p.2

/-- C2: the sequence returned by `predict` is ordered non-increasingly
by rate, and ties are kept in the Dataset Store's drug enumeration
order: the unsorted list enumerates the baseline drugs in order, and
any pair appearing in that order with equal rates still appears in
that order in the sorted output (stable sort). -/
theorem predict_sorted_desc_stable (s : Store) (a : AnswerSet) :
    (predict s a).Pairwise (fun x y => y.rate ≤ x.rate) ∧
    (preResults s a).map Result.drug = s.drugs ∧
    ∀ x y : Result, List.Sublist [x, y] (preResults s a) → x.rate = y.rate →
      List.Sublist [x, y] (predict s a) := by
  refine ⟨?_, ?_, ?_⟩
  · have h : ((preResults s a).mergeSort rateGE).Pairwise (fun x y => rateGE x y) :=
      List.sorted_mergeSort rateGE_trans rateGE_total (preResults s a)
    exact h.imp fun hb => by simpa [rateGE] using hb
  · unfold preResults Store.drugs
    rw [List.map_map]
    exact List.map_congr_left fun p _ => resultFor_drug s a p.1 p.2
  · intro x y hsub hrate
    exact List.pair_sublist_mergeSort rateGE_trans rateGE_total
      (by simp [rateGE, hrate]) hsub

/-! ### Geometric-mean helpers -/

theorem geoAdjust_ne_nil (base : ℝ) {logs : List ℝ} (h : logs ≠ []) :
    geoAdjust base logs = base * Real.exp (logs.sum / logs.length) := by
  cases logs with
  | nil => exact absurd rfl h
  | cons x xs => rfl

theorem geoAdjust_single (base demo : ℝ) (hb : 0 < base) (hd : 0 < demo) :
    geoAdjust base [Real.log (demo / base)] = demo := by
  rw [geoAdjust_ne_nil base (by simp)]
  simp
  rw [Real.exp_log (div_pos hd hb)]
  field_simp

theorem recognizedRates_empty (s : Store) (d : String) :
    recognizedRates s emptyAnswers d = [] := by
  simp [recognizedRates, answerRate, emptyAnswers]

theorem resultFor_empty_rate (s : Store) (d : String) (b : ℝ) :
    (resultFor s emptyAnswers d b).rate = round2 (max (min b 95) 0) := by
  unfold resultFor
  split
  · rename_i h
    rw [min_eq_left (le_trans h (by norm_num)), max_eq_right h, round2_zero]
  · show round2 (max (min (geoAdjust b ((recognizedRates s emptyAnswers d).map
        (flooredLogRatio b))) 95) 0) = round2 (max (min b 95) 0)
    rw [recognizedRates_empty]
    rfl

theorem predict_sorted_desc_stable_witness :
    List.Sublist
      [resultFor s2 emptyAnswers "A" 10, resultFor s2 emptyAnswers "B" 10]
      (predict s2 emptyAnswers) := by
  apply (predict_sorted_desc_stable s2 emptyAnswers).2.2
  · show List.Sublist
      [resultFor s2 emptyAnswers "A" 10, resultFor s2 emptyAnswers "B" 10]
      [resultFor s2 emptyAnswers "A" 10, resultFor s2 emptyAnswers "B" 10]
    exact List.Sublist.refl _
  · rw [resultFor_empty_rate, resultFor_empty_rate]

/-! ### C3 -/

/-- Counterexample to C3: the baseline rate 98 lies in the admissible
range [0, 100], yet with the empty Answer Set `predict` reports rate
95 for the drug, not the baseline unchanged (the 95 cap applies). -/
theorem empty_answers_not_always_baseline :
    s3.baseline = [("X", 98)] ∧
    (predict s3 emptyAnswers).map Result.rate = [95] := by
  refine ⟨rfl, ?_⟩
  have h1 : predict s3 emptyAnswers = [resultFor s3 emptyAnswers "X" 98] := by
    show ([resultFor s3 emptyAnswers "X" 98]).mergeSort rateGE = _
    simp
  rw [h1, List.map_singleton, resultFor_empty_rate]
  rw [min_eq_right (by norm_num), max_eq_left (by norm_num), round2_95]

/-- C3 (amended): with the empty Answer Set no ratios are accumulated,
so each drug's pre-clamp adjusted rate is its baseline unchanged; the
reported rate is the baseline clamped to [0, 95] and rounded to two
decimals, hence equals the baseline whenever the baseline lies in
[0, 95] and is an exact two-decimal value. -/
theorem predict_empty_answers_baseline (s : Store) (d : String) (b : ℝ)
    (hmem : (d, b) ∈ s.baseline) :
    resultFor s emptyAnswers d b ∈ predict s emptyAnswers ∧
    geoAdjust b ((recognizedRates s emptyAnswers d).map (flooredLogRatio b)) = b ∧
    (resultFor s emptyAnswers d b).rate = round2 (max (min b 95) 0) ∧
    (0 ≤ b → b ≤ 95 → (∃ k : ℤ, b = (k : ℝ) / 100) →
      (resultFor s emptyAnswers d b).rate = b) := by
  refine ⟨resultFor_mem_predict hmem, ?_, resultFor_empty_rate s d b, ?_⟩
  · rw [recognizedRates_empty]
    rfl
  · rintro h0 h95 ⟨k, rfl⟩
    have h := round2_eval k ((k : ℝ) / 100) (by ring)
    rw [resultFor_empty_rate, min_eq_left h95, max_eq_left h0, h]

theorem predict_empty_answers_baseline_witness :
    (resultFor s3w emptyAnswers "X" 42.5).rate = 42.5 := by
  have h := predict_empty_answers_baseline s3w "X" 42.5 (by simp [s3w])
  exact h.2.2.2 (by norm_num) (by norm_num) ⟨4250, by norm_num⟩

/-! ### C4 -/

/-- C4: with exactly one recognised answer, whose demographic rate for
the drug is positive and below the 95 cap, the geometric mean of one
ratio is that ratio itself, so the adjusted rate is the demographic
rate: the emitted Result has rate `round2 demo` and multiplier
`round2 (demo / base)`, and it is returned by `predict` when the drug
is in the baseline mapping. -/
theorem predict_single_answer (s : Store) (a : AnswerSet) (d : String)
    (base demo : ℝ) (hrec : recognizedRates s a d = [demo]) (hb : 0 < base)
    (hd : 0 < demo) (hcap : demo < 95) :
    resultFor s a d base = ⟨d, round2 demo, some (round2 base),
      some (round2 (demo / base)), some ((s.drug_classes.lookup d).getD "")⟩ ∧
    ((d, base) ∈ s.baseline → resultFor s a d base ∈ predict s a) := by
  refine ⟨?_, fun hmem => resultFor_mem_predict hmem⟩
  unfold resultFor
  rw [if_neg (not_le.mpr hb), hrec]
  have hfl : flooredLogRatio base demo = Real.log (demo / base) := by
    unfold flooredLogRatio
    rw [if_neg (not_le.mpr hd)]
  have hmap : ([demo] : List ℝ).map (flooredLogRatio base) =
      [Real.log (demo / base)] := by
    simp [hfl]
  show (⟨d, round2 (max (min (geoAdjust base (([demo] : List ℝ).map
      (flooredLogRatio base))) 95) 0), some (round2 base),
      some (round2 (if 0 < base then
        max (min (geoAdjust base (([demo] : List ℝ).map (flooredLogRatio base))) 95) 0
          / base else 1)),
      some ((s.drug_classes.lookup d).getD "")⟩ : Result) = _
  rw [hmap, geoAdjust_single base demo hb hd, min_eq_left hcap.le,
    max_eq_left hd.le, if_pos hb]

theorem predict_single_answer_witness :
    recognizedRates s4 a4 "Cannabis" = [20] ∧
    (resultFor s4 a4 "Cannabis" 10).rate = 20 ∧
    (resultFor s4 a4 "Cannabis" 10).multiplier = some 2 := by
  have hrec : recognizedRates s4 a4 "Cannabis" = [20] := by
    simp [recognizedRates, answerRate, s4, a4, List.lookup]
  have h := (predict_single_answer s4 a4 "Cannabis" 10 20 hrec (by norm_num)
    (by norm_num) (by norm_num)).1
  refine ⟨hrec, ?_, ?_⟩
  · rw [h]
    show round2 20 = 20
    rw [round2_eval 2000 20 (by norm_num)]
    norm_num
  · rw [h]
    show some (round2 (20 / 10)) = some 2
    rw [show (20:ℝ)/10 = 2 by norm_num, round2_eval 200 2 (by norm_num)]
    norm_num

/-! ### C5 -/

/-- C5: every drug whose baseline rate is non-positive (in particular
zero) is reported by `predict` with rate exactly 0 and no other
fields, regardless of which questions were answered and how. -/
theorem predict_zero_baseline_rate (s : Store) (a : AnswerSet) (d : String)
    (b : ℝ) (hmem : (d, b) ∈ s.baseline) (hb : b ≤ 0) :
    (⟨d, 0, none, none, none⟩ : Result) ∈ predict s a := by
  have h : resultFor s a d b = ⟨d, 0, none, none, none⟩ := by
    unfold resultFor
    rw [if_pos hb]
  exact h ▸ resultFor_mem_predict hmem

theorem predict_zero_baseline_rate_witness :
    (⟨"Z", 0, none, none, none⟩ : Result) ∈ predict s5 emptyAnswers :=
  predict_zero_baseline_rate s5 emptyAnswers "Z" 0 (by simp [s5]) le_rfl

/-! ### C6 -/

theorem flooredLogRatio_of_nonpos (base : ℝ) {demo : ℝ} (h : demo ≤ 0) :
    flooredLogRatio base demo = Real.log (0.01 / base) := by
  unfold flooredLogRatio
  rw [if_pos h]

theorem geoAdjust_pos (base : ℝ) (hb : 0 < base) (logs : List ℝ) :
    0 < geoAdjust base logs := by
  cases logs with
  | nil => exact hb
  | cons x xs => exact mul_pos hb (Real.exp_pos _)

theorem round2_small (x : ℝ) (h0 : -(1/2) ≤ 100 * x) (h1 : 100 * x < 1/2) :
    round2 x = 0 := by
  unfold round2
  have h : round (100 * x) = 0 := by
    rw [round_eq]
    refine Int.floor_eq_iff.mpr ⟨?_, ?_⟩
    · push_cast
      linarith
    · push_cast
      linarith
  rw [h]
  norm_num

/-- Counterexample to C6: baseline 10 is positive and the recognised
answer to `q1` has demographic rate 0 for the drug (so the 0.01 floor
is substituted before the logarithm), yet the reported rate is 0.00,
not at least 0.01: the other answered option's tiny positive rate
0.0001 drags the geometric mean down to 0.001, which rounds to 0. -/
theorem floor_rate_counterexample :
    (0:ℝ) < 10 ∧ recognizedRates s6 a6 "X" = [0, 0.0001] ∧
    (resultFor s6 a6 "X" 10).rate = 0 := by
  have hrec : recognizedRates s6 a6 "X" = [0, 0.0001] := by
    simp [recognizedRates, answerRate, s6, a6, List.lookup]
  refine ⟨by norm_num, hrec, ?_⟩
  unfold resultFor
  rw [if_neg (by norm_num : ¬ (10:ℝ) ≤ 0), hrec]
  show round2 (max (min (geoAdjust 10 (([0, 0.0001] : List ℝ).map
    (flooredLogRatio 10))) 95) 0) = 0
  have hmap : ([0, 0.0001] : List ℝ).map (flooredLogRatio 10) =
      [Real.log (0.01 / 10), Real.log (0.0001 / 10)] := by
    unfold flooredLogRatio
    norm_num
  rw [hmap, geoAdjust_ne_nil 10 (by simp)]
  have hsum : ([Real.log (0.01/10), Real.log (0.0001/10)] : List ℝ).sum
      = 2 * Real.log 0.0001 := by
    show Real.log (0.01/10) + (Real.log (0.0001/10) + 0) = _
    rw [add_zero, show (0.01:ℝ)/10 = 0.001 by norm_num,
      show (0.0001:ℝ)/10 = 0.00001 by norm_num,
      ← Real.log_mul (by norm_num) (by norm_num),
      show (0.001:ℝ) * 0.00001 = 0.0001 ^ (2:ℕ) by norm_num, Real.log_pow]
    norm_num
  have hlen : ((([Real.log (0.01/10), Real.log (0.0001/10)] : List ℝ).length : ℕ) : ℝ)
      = 2 := by
    simp
  rw [hsum, hlen]
  have h3 : (2:ℝ) * Real.log 0.0001 / 2 = Real.log 0.0001 := by ring
  rw [h3, Real.exp_log (by norm_num),
    show (10:ℝ) * 0.0001 = 0.001 by norm_num,
    min_eq_left (by norm_num), max_eq_left (by norm_num)]
  exact round2_small 0.001 (by norm_num) (by norm_num)

/-- C6 (amended): for a drug with positive baseline the 0.01 floor is
substituted before the logarithm, so the argument of every logarithm
computed by `predict` is strictly positive and the pre-rounding
adjusted rate is strictly positive (the non-finite branch is
unreachable, never zero, never an error); and when every answered,
recognised option's demographic rate for the drug is absent or
non-positive, the reported rate is exactly 0.01.  With a mix of
floored and tiny positive demographic rates the reported rate can
round to 0.00. -/
theorem floor_before_log_positive (s : Store) (a : AnswerSet) (d : String)
    (base : ℝ) (hb : 0 < base) :
    (∀ demo ∈ recognizedRates s a d,
      0 < (if demo ≤ 0 then 0.01 else demo) / base) ∧
    0 < geoAdjust base ((recognizedRates s a d).map (flooredLogRatio base)) ∧
    (recognizedRates s a d ≠ [] →
      (∀ demo ∈ recognizedRates s a d, demo ≤ 0) →
      (resultFor s a d base).rate = 0.01) := by
  refine ⟨?_, geoAdjust_pos base hb _, ?_⟩
  · intro demo _
    split
    · exact div_pos (by norm_num) hb
    · rename_i h
      exact div_pos (lt_of_not_le h) hb
  · intro hne hall
    have hmap : (recognizedRates s a d).map (flooredLogRatio base) =
        List.replicate (recognizedRates s a d).length (Real.log (0.01 / base)) := by
      rw [List.map_congr_left fun r hr => flooredLogRatio_of_nonpos base (hall r hr)]
      exact List.map_const' _ _
    have hlen : (recognizedRates s a d).length ≠ 0 := by
      simpa using hne
    have hne' : List.replicate (recognizedRates s a d).length
        (Real.log (0.01 / base)) ≠ [] := by
      simp only [ne_eq, List.replicate_eq_nil_iff]
      exact hlen
    have hadj : geoAdjust base ((recognizedRates s a d).map (flooredLogRatio base))
        = 0.01 := by
      rw [hmap, geoAdjust_ne_nil base hne', List.sum_replicate,
        List.length_replicate, nsmul_eq_mul,
        mul_div_cancel_left₀ _ (by exact_mod_cast hlen),
        Real.exp_log (div_pos (by norm_num) hb), mul_comm,
        div_mul_cancel₀ _ (ne_of_gt hb)]
    unfold resultFor
    rw [if_neg (not_le.mpr hb)]
    show round2 (max (min (geoAdjust base ((recognizedRates s a d).map
      (flooredLogRatio base))) 95) 0) = 0.01
    rw [hadj, min_eq_left (by norm_num), max_eq_left (by norm_num),
      round2_eval 1 0.01 (by norm_num)]
    norm_num

theorem floor_before_log_positive_witness :
    (resultFor s6w a6w "X" 10).rate = 0.01 := by
  have hrec : recognizedRates s6w a6w "X" = [0] := by
    simp [recognizedRates, answerRate, s6w, a6w, List.lookup]
  refine (floor_before_log_positive s6w a6w "X" 10 (by norm_num)).2.2 ?_ ?_
  · rw [hrec]
    simp
  · rw [hrec]
    simp

/-! ### C7 -/

theorem answerRate_removeAnswer (a : AnswerSet) (q o : String) (ha : a q = some o)
    (d : String) (qq : Question) (hopt : qq.id = q → qq.options.lookup o = none) :
    answerRate (removeAnswer q a) d qq = answerRate a d qq := by
  by_cases hid : qq.id = q
  · have hl : answerRate (removeAnswer q a) d qq = none := by
      unfold answerRate
      have h : removeAnswer q a qq.id = none := by
        unfold removeAnswer
        rw [if_pos hid]
      rw [h]
    have hr : answerRate a d qq = none := by
      unfold answerRate
      rw [hid, ha]
      simp only [hopt hid]
    rw [hl, hr]
  · have h : removeAnswer q a qq.id = a qq.id := by
      unfold removeAnswer
      rw [if_neg hid]
    unfold answerRate
    rw [h]

/-- C7: entries whose question id is unknown to the Dataset Store, or
whose chosen option label is not among that question's options, are
silently ignored: removing such an entry from the Answer Set leaves
the output of `predict` unchanged, and no error occurs. -/
theorem predict_ignores_unrecognized (s : Store) (a : AnswerSet) (q o : String)
    (ha : a q = some o)
    (hopt : ∀ qq ∈ s.questions, qq.id = q → qq.options.lookup o = none) :
    predict s (removeAnswer q a) = predict s a := by
  have hres : ∀ d b, resultFor s (removeAnswer q a) d b = resultFor s a d b := by
    intro d b
    have hrec : recognizedRates s (removeAnswer q a) d = recognizedRates s a d := by
      unfold recognizedRates
      exact List.filterMap_congr fun qq hqq =>
        answerRate_removeAnswer a q o ha d qq (hopt qq hqq)
    unfold resultFor
    rw [hrec]
  unfold predict preResults
  congr 1
  exact List.map_congr_left fun p _ => hres p.1 p.2

theorem predict_ignores_unrecognized_witness :
    a7 "junk" = some "whatever" ∧
    predict s7 (removeAnswer "junk" a7) = predict s7 a7 := by
  refine ⟨by simp [a7], ?_⟩
  apply predict_ignores_unrecognized s7 a7 "junk" "whatever" (by simp [a7])
  intro qq hqq hid
  simp [s7] at hqq
  rw [hqq] at hid
  simp at hid

/-! ### C8 and C9 -/

theorem appResultFor_strip (s : Store) (a : AnswerSet) (d : String) (b : ℝ) :
    appResultFor s a d b = stripResult (resultFor s a d b) := by
  unfold appResultFor resultFor stripResult
  by_cases h : b ≤ 0
  · rw [if_pos h, if_pos h]
  · rw [if_neg h, if_neg h]

theorem appPredict_rate_bounds (s : Store) (a : AnswerSet) :
    ∀ r ∈ appPredict s a, 0 ≤ r.rate ∧ r.rate ≤ 95 := by
  intro r hr
  unfold appPredict at hr
  rw [List.mem_mergeSort] at hr
  unfold appPreResults at hr
  obtain ⟨p, _, rfl⟩ := List.mem_map.mp hr
  rw [appResultFor_strip]
  exact resultFor_rate_bounds s a p.1 p.2

/-- C8: the any-drug estimator sums the rates of the top 3 results of
the ordered sequence, multiplies the sum by 0.85 and caps the product
at 95; on `predict` output its value always lies in [0, 95], and on
top-3 rates [30, 20, 10] it evaluates to 51.0. -/
theorem anyDrug_estimate_bounds (s : Store) (a : AnswerSet) :
    (0 ≤ anyDrugEstimate (appPredict s a) ∧
      anyDrugEstimate (appPredict s a) ≤ 95) ∧
    anyDrugEstimate [⟨"Cannabis", 30, none⟩, ⟨"Powder cocaine", 20, none⟩,
      ⟨"Ecstasy", 10, none⟩] = 51 := by
  refine ⟨⟨?_, min_le_right _ _⟩, ?_⟩
  · unfold anyDrugEstimate
    apply le_min _ (by norm_num)
    apply mul_nonneg _ (by norm_num)
    apply List.sum_nonneg
    intro x hx
    obtain ⟨r, hr, rfl⟩ := List.mem_map.mp hx
    exact (appPredict_rate_bounds s a r (List.mem_of_mem_take hr)).1
  · unfold anyDrugEstimate
    norm_num [List.take, min_def]

/-- C9: the two copies of the prediction engine are equivalent on the
shared part of their output: `predict` in `app.py` produces the same
results as `predict` in `predict.py` with the `baseline_rate` and
`multiplier` fields dropped — same length, same drug names, same
rates, same classification, same order. -/
theorem engines_equivalent (s : Store) (a : AnswerSet) :
    appPredict s a = (predict s a).map stripResult ∧
    (appPredict s a).length = (predict s a).length := by
  have hpre : appPreResults s a = (preResults s a).map stripResult := by
    unfold appPreResults preResults
    rw [List.map_map]
    exact List.map_congr_left fun p _ => appResultFor_strip s a p.1 p.2
  have hmain : appPredict s a = (predict s a).map stripResult := by
    unfold appPredict predict
    rw [hpre]
    exact (@List.map_mergeSort Result AppResult rateGE appRateGE stripResult
      (preResults s a) fun x _ y _ => rfl).symm
  exact ⟨hmain, by rw [hmain, List.length_map]⟩

/-! ### C10 -/

/-- C10: for drugs with non-positive baseline the emitted Result
consists of the `drug` and `rate` fields only — `baseline_rate`,
`multiplier` and `classification` are omitted (`none`) — whereas for
positive baselines all three fields are present (`some`). -/
theorem zero_baseline_fields_omitted (s : Store) (a : AnswerSet) (d : String)
    (b : ℝ) :
    (b ≤ 0 → resultFor s a d b = ⟨d, 0, none, none, none⟩) ∧
    (0 < b → (resultFor s a d b).baseline_rate.isSome = true ∧
      (resultFor s a d b).multiplier.isSome = true ∧
      (resultFor s a d b).classification.isSome = true) := by
  constructor
  · intro h
    unfold resultFor
    rw [if_pos h]
  · intro h
    unfold resultFor
    rw [if_neg (not_le.mpr h)]
    exact ⟨rfl, rfl, rfl⟩

theorem zero_baseline_fields_omitted_witness :
    resultFor s10 emptyAnswers "Z" 0 = ⟨"Z", 0, none, none, none⟩ ∧
    (resultFor s10 emptyAnswers "Z" 1).baseline_rate.isSome = true :=
  ⟨(zero_baseline_fields_omitted s10 emptyAnswers "Z" 0).1 le_rfl,
    ((zero_baseline_fields_omitted s10 emptyAnswers "Z" 1).2 (by norm_num)).1⟩

end Drugs
